import Mathlib

/-!
# Verification of the USACE hydropower scraper (no-browser edition)

Shallow embedding of the scraper in `scripts/scrape-usace.js` (no-browser
edition, the revision with the GridView1-targeted table match, caption
stripping and the strict `^[\d.]+$` numeric-cell policy).  HTML documents and
all other JavaScript strings are modelled as `List Char`; the regex patterns
the code relies on are compiled by hand into executable scanners with the
exact JavaScript semantics (leftmost match, greedy/lazy quantifiers,
case-insensitive flag folding ASCII letters only, which is exact for regexes
without the `u` flag).  JavaScript numbers are modelled as exact rationals
plus NaN (`JSNum`); infinities cannot arise from any value this program
computes, and double rounding is idealised away.  Wall-clock timestamps
(`new Date()`, `scrapedAt`, `timestamp`) are omitted from the data model or
taken as parameters, since they are runtime inputs.
-/

namespace Usace

/-! ## JavaScript numbers -/

/-- A JavaScript number as produced by this program: an exact rational or
NaN.  (`parseFloat` on the cells this scraper accepts, and the arithmetic in
its statistics block, never produce infinities.) -/
inductive JSNum where
  | nan : JSNum
  | num (q : ℚ) : JSNum
deriving DecidableEq

/-- JavaScript `a + b` on numbers: NaN is absorbing. -/
def jsAdd : JSNum → JSNum → JSNum
  | .nan, _ => .nan
  | _, .nan => .nan
  | .num a, .num b => .num (a + b)

/-- One step of JavaScript `Math.max`: NaN poisons the result. -/
def jsMaxOp : JSNum → JSNum → JSNum
  | .nan, _ => .nan
  | _, .nan => .nan
  | .num a, .num b => .num (max a b)

/-- One step of JavaScript `Math.min`: NaN poisons the result. -/
def jsMinOp : JSNum → JSNum → JSNum
  | .nan, _ => .nan
  | _, .nan => .nan
  | .num a, .num b => .num (min a b)

/-- JavaScript `Math.round`: half-up towards `+∞`; `Math.round(NaN)` is NaN. -/
def jsRound : JSNum → JSNum
  | .nan => .nan
  | .num q => .num ((⌊q + 1/2⌋ : ℤ) : ℚ)

/-- Division of a JavaScript number by a (positive, in every use site)
natural count. -/
def jsDivNat : JSNum → Nat → JSNum
  | .nan, _ => .nan
  | .num q, n => .num (q / n)

/-- JavaScript `g > t` for a number `g` and rational threshold `t`:
false when `g` is NaN. -/
def jsGtB (g : JSNum) (t : ℚ) : Bool :=
  match g with
  | .nan => false
  | .num q => decide (t < q)

/-- `gens.reduce((a, b) => a + b)`-style fold: JavaScript `reduce` without an
initial value starts from the first element.  The `[]` case is unreachable at
every call site (guarded by a length check in the source). -/
def neFold (op : JSNum → JSNum → JSNum) : List JSNum → JSNum
  | [] => .num 0
  | g :: gs => gs.foldl op g

/-! ## Characters and case-insensitive matching

The scraper's regexes carry the `i` flag but not the `u` flag.  Without `u`,
JavaScript canonicalisation never identifies a non-ASCII character with an
ASCII one, so folding ASCII letters is the exact semantics for the ASCII-only
literals these patterns use. -/

/-- ASCII lowercase folding (JavaScript `i`-flag canonicalisation restricted
to ASCII, exact for non-`u` regexes over ASCII pattern literals). -/
def lcChar (c : Char) : Char :=
  if 'A' ≤ c ∧ c ≤ 'Z' then Char.ofNat (c.toNat + 32) else c

/-- Case-insensitive character comparison. -/
def ciEq (a b : Char) : Bool := lcChar a == lcChar b

/-- Is `pat` a case-insensitive prefix of `l`? -/
def ciIsPrefixB : List Char → List Char → Bool
  | [], _ => true
  | _ :: _, [] => false
  | p :: ps, c :: cs => ciEq p c && ciIsPrefixB ps cs

/-- Does `pat` occur case-insensitively anywhere in `l`? -/
def ciContainsB (pat : List Char) : List Char → Bool
  | [] => ciIsPrefixB pat []
  | c :: cs => ciIsPrefixB pat (c :: cs) || ciContainsB pat cs

/-- Is `pat` a (case-sensitive) prefix of `l`? -/
def csIsPrefixB : List Char → List Char → Bool
  | [], _ => true
  | _ :: _, [] => false
  | p :: ps, c :: cs => p == c && csIsPrefixB ps cs

/-- Does `pat` occur (case-sensitively) anywhere in `l`? -/
def csContainsB (pat : List Char) : List Char → Bool
  | [] => csIsPrefixB pat []
  | c :: cs => csIsPrefixB pat (c :: cs) || csContainsB pat cs

/-- The characters removed by JavaScript `String.prototype.trim` and skipped
by `parseFloat` (ASCII whitespace, NBSP, BOM and the Unicode space
separators). -/
def wsChars : List Char :=
  [' ', '\t', '\n', '\r', '\x0b', '\x0c',
   Char.ofNat 0xa0, Char.ofNat 0x1680, Char.ofNat 0x2000, Char.ofNat 0x2001,
   Char.ofNat 0x2002, Char.ofNat 0x2003, Char.ofNat 0x2004, Char.ofNat 0x2005,
   Char.ofNat 0x2006, Char.ofNat 0x2007, Char.ofNat 0x2008, Char.ofNat 0x2009,
   Char.ofNat 0x200a, Char.ofNat 0x2028, Char.ofNat 0x2029, Char.ofNat 0x202f,
   Char.ofNat 0x205f, Char.ofNat 0x3000, Char.ofNat 0xfeff]

/-- JavaScript whitespace test. -/
def isJsWs (c : Char) : Bool := wsChars.any (fun w => w == c)

/-- JavaScript `String.prototype.trim`. -/
def trimJs (l : List Char) : List Char :=
  ((l.dropWhile isJsWs).reverse.dropWhile isJsWs).reverse

/-! ## JavaScript `parseFloat` -/

/-- Digit-string value, `foldl (acc * 10 + digit)`. -/
def digitsToNat (l : List Char) : Nat :=
  l.foldl (fun a c => a * 10 + (c.toNat - 48)) 0

/-- Optional sign at the head of a `parseFloat` input. -/
def parseSign : List Char → ℚ × List Char
  | [] => (1, [])
  | c :: r => if c = '-' then (-1, r) else if c = '+' then (1, r) else (1, c :: r)

/-- Optional `.digits` fractional part: returns the fraction digits and the
rest of the input. -/
def parseFrac : List Char → List Char × List Char
  | [] => ([], [])
  | c :: r =>
      if c = '.' then (r.takeWhile Char.isDigit, r.drop (r.takeWhile Char.isDigit).length)
      else ([], c :: r)

/-- Exponent digits: an exponent with no digits is not part of the parsed
prefix (`parseFloat("1e") = 1`). -/
def expDigits (ds : List Char) (neg : Bool) : ℤ :=
  let dd := ds.takeWhile Char.isDigit
  if dd.isEmpty then 0 else if neg then -(digitsToNat dd : ℤ) else (digitsToNat dd : ℤ)

/-- Signed exponent body after `e`/`E`. -/
def parseExpTail : List Char → ℤ
  | [] => 0
  | c :: ds => if c = '-' then expDigits ds true
               else if c = '+' then expDigits ds false
               else expDigits (c :: ds) false

/-- Optional `e`/`E` exponent. -/
def parseExp : List Char → ℤ
  | [] => 0
  | c :: r => if c = 'e' ∨ c = 'E' then parseExpTail r else 0

/-- Mantissa assembly: NaN when neither integer nor fraction digits were
found, otherwise `sign * int.frac * 10^exp`. -/
def jsParseFloatMant (sgn : ℚ) (intD : List Char) (fp : List Char × List Char) : JSNum :=
  if intD.isEmpty && fp.1.isEmpty then JSNum.nan
  else JSNum.num (sgn * ((digitsToNat intD : ℚ) + (digitsToNat fp.1 : ℚ) / (10 : ℚ) ^ fp.1.length)
        * (10 : ℚ) ^ parseExp fp.2)

/-- Digit split after the sign: integer digits, then the optional fraction. -/
def jsParseFloatBody (sgn : ℚ) (l : List Char) : JSNum :=
  jsParseFloatMant sgn (l.takeWhile Char.isDigit)
    (parseFrac (l.drop (l.takeWhile Char.isDigit).length))

/-- JavaScript `parseFloat`: skip whitespace, optional sign, decimal digits
with at most one dot, optional exponent; NaN when no digit is found.  (The
`Infinity` literal is not modelled: no string this scraper feeds to
`parseFloat` can begin with it, as only cells matching `^[\d.]+$` reach the
call.) -/
def jsParseFloat (l : List Char) : JSNum :=
  jsParseFloatBody (parseSign (l.dropWhile isJsWs)).1 (parseSign (l.dropWhile isJsWs)).2

/-! ## Regex scanners

Hand compilations of the regexes in the scraper, with JavaScript engine
semantics: attempts proceed left to right one character at a time; a global
match continues after the end of the previous match; `[^>]*`/`[^>]+` are
greedy runs of non-`>` characters; `[\s\S]*?` is lazy (shortest extension);
`[\s\S]*` is greedy (longest extension). -/

/-- Split at the first `>` character: `some (before, after)` with `before`
the (necessarily `>`-free) prefix, `after` the suffix past the `>`. -/
def splitFirstGtParts : List Char → Option (List Char × List Char)
  | [] => none
  | c :: cs =>
      if c = '>' then some ([], cs)
      else (splitFirstGtParts cs).map (fun p => (c :: p.1, p.2))

/-- Split at the first case-insensitive occurrence of `pat`:
`some (before, after)` with `after` the suffix past the occurrence.
Models a lazy `[\s\S]*?pat`. -/
def splitFirstOcc (pat : List Char) : List Char → Option (List Char × List Char)
  | [] => if ciIsPrefixB pat [] then some ([], []) else none
  | c :: cs =>
      if ciIsPrefixB pat (c :: cs) then some ([], (c :: cs).drop pat.length)
      else (splitFirstOcc pat cs).map (fun p => (c :: p.1, p.2))

/-- The prefix before the last case-insensitive occurrence of `pat`.
Models a greedy `([\s\S]*)pat`. -/
def splitLastOcc (pat : List Char) : List Char → Option (List Char)
  | [] => if ciIsPrefixB pat [] then some [] else none
  | c :: cs =>
      match splitLastOcc pat cs with
      | some b => some (c :: b)
      | none => if ciIsPrefixB pat (c :: cs) then some [] else none

/-- One attempt of `openLit[^>]*>([\s\S]*?)closeLit` at the head of `l`:
on success, the lazy capture and the rest of the input after the close
literal. -/
def matchBlockAt (openLit closeLit l : List Char) : Option (List Char × List Char) :=
  if ciIsPrefixB openLit l then
    match splitFirstGtParts (l.drop openLit.length) with
    | some (_, after) => splitFirstOcc closeLit after
    | none => none
  else none

/-- `matchAll` of `openLit[^>]*>([\s\S]*?)closeLit`: all non-overlapping
captures, scanning left to right.  `fuel` is an upper bound on the number of
steps; every call site passes at least the input length, which always
suffices because each step strictly shortens the input. -/
def scanBlocks (openLit closeLit : List Char) : Nat → List Char → List (List Char)
  | 0, _ => []
  | _ + 1, [] => []
  | f + 1, c :: cs =>
      match matchBlockAt openLit closeLit (c :: cs) with
      | some (cap, rest) => cap :: scanBlocks openLit closeLit f rest
      | none => scanBlocks openLit closeLit f cs

/-- Global `replace` of `openLit[^>]*>([\s\S]*?)closeLit` with the empty
string (used for `<caption...>...</caption>` removal). -/
def removeBlocks (openLit closeLit : List Char) : Nat → List Char → List Char
  | 0, l => l
  | _ + 1, [] => []
  | f + 1, c :: cs =>
      match matchBlockAt openLit closeLit (c :: cs) with
      | some (_, rest) => removeBlocks openLit closeLit f rest
      | none => c :: removeBlocks openLit closeLit f cs

/-- Global `replace(/<[^>]+>/g, '')`: strip markup tags. -/
def stripTags : Nat → List Char → List Char
  | 0, l => l
  | _ + 1, [] => []
  | f + 1, c :: cs =>
      if c = '<' then
        match splitFirstGtParts cs with
        | some (before, after) =>
            if before.isEmpty then c :: stripTags f cs else stripTags f after
        | none => c :: stripTags f cs
      else c :: stripTags f cs

/-! ### The pattern literals of `parseGenerationTable` -/

def tableLit : List Char := ['<', 't', 'a', 'b', 'l', 'e']
def idGridLit : List Char := ['i', 'd', '=', '"', 'G', 'r', 'i', 'd', 'V', 'i', 'e', 'w', '1', '"']
def tableCloseLit : List Char := ['<', '/', 't', 'a', 'b', 'l', 'e', '>']
def capOpenLit : List Char := ['<', 'c', 'a', 'p', 't', 'i', 'o', 'n']
def capCloseLit : List Char := ['<', '/', 'c', 'a', 'p', 't', 'i', 'o', 'n', '>']
def trOpenLit : List Char := ['<', 't', 'r']
def trCloseLit : List Char := ['<', '/', 't', 'r', '>']
def tdOpenLit : List Char := ['<', 't', 'd']
def tdCloseLit : List Char := ['<', '/', 't', 'd', '>']

/-- One attempt of `<table[^>]+id="GridView1"[^>]*>` at the head of `l`:
on success, the rest of the input after the opening tag's `>`.  The
`[^>]+` forces the `id` literal to start at least one character past
`<table`, and both runs live inside the `>`-free span of the tag. -/
def matchGridOpenAt (l : List Char) : Option (List Char) :=
  if ciIsPrefixB tableLit l then
    match splitFirstGtParts (l.drop tableLit.length) with
    | some (before, after) => if ciContainsB idGridLit (before.drop 1) then some after else none
    | none => none
  else none

/-- `html.match(/<table[^>]+id="GridView1"[^>]*>([\s\S]*)<\/table>/i)`:
the greedy capture runs to the *last* `</table>`, deliberately (per the
source comment) so that a table nested in the caption does not truncate it. -/
def findGrid : Nat → List Char → Option (List Char)
  | 0, _ => none
  | _ + 1, [] => none
  | f + 1, c :: cs =>
      match matchGridOpenAt (c :: cs) with
      | some after =>
          match splitLastOcc tableCloseLit after with
          | some cap => some cap
          | none => findGrid f cs
      | none => findGrid f cs

/-! ## The table extractor (`parseGenerationTable`) -/

/-- `status` enum of a generation period. -/
inductive Status where
  | base : Status
  | active : Status
  | peak : Status
deriving DecidableEq

/-- `generation > 50 ? 'peak' : generation > 10 ? 'active' : 'base'`. -/
def statusOf (g : JSNum) : Status :=
  if jsGtB g 50 then .peak else if jsGtB g 10 then .active else .base

/-- The `source` label of live extracted periods. -/
def realtimeLabel : List Char := "USACE Real-time".data

/-- One generation-period record. -/
structure Period where
  time : List Char
  generation : JSNum
  status : Status
  source : List Char
deriving DecidableEq

/-- `cells[1].match(/^[\d.]+$/)` as a Boolean: a non-empty string of digits
and dots. -/
def pureNumeric (l : List Char) : Bool :=
  !l.isEmpty && l.all (fun c => c.isDigit || c = '.')

/-- The body of the row loop, applied to the already-extracted cell texts:
a row yields a period only when it has at least two cells, the first is
non-empty (JavaScript truthiness of `timeText`) and the second matches
`^[\d.]+$`. -/
def periodOfCells : List (List Char) → Option Period
  | t :: g :: _ =>
      if t ≠ [] ∧ pureNumeric g = true then
        some { time := t, generation := jsParseFloat g,
               status := statusOf (jsParseFloat g), source := realtimeLabel }
      else none
  | _ => none

/-- The cell texts of one row:
`[...row.matchAll(/<td[^>]*>([\s\S]*?)<\/td>/gi)].map(c => c[1].replace(/<[^>]+>/g, '').trim())`. -/
def cellsOfRow (row : List Char) : List (List Char) :=
  (scanBlocks tdOpenLit tdCloseLit (row.length + 1) row).map
    (fun c => trimJs (stripTags (c.length + 1) c))

/-- One iteration of the row loop of `parseGenerationTable`. -/
def rowToPeriod (row : List Char) : Option Period :=
  periodOfCells (cellsOfRow row)

/-- `parseGenerationTable(html)` from `scrape-usace.js` (no-browser
edition): locate the `GridView1` table with a greedy match, remove
`<caption...>...</caption>` sections, split the remainder into `<tr>` rows,
skip the header row, and keep the rows that pass `periodOfCells`. -/
def parseGenerationTable (html : List Char) : List Period :=
  match findGrid (html.length + 1) html with
  | none => []
  | some tableHtml =>
      let tableWithoutCaption :=
        removeBlocks capOpenLit capCloseLit (tableHtml.length + 1) tableHtml
      ((scanBlocks trOpenLit trCloseLit (tableWithoutCaption.length + 1)
          tableWithoutCaption).drop 1).filterMap rowToPeriod

/-! ## The form-state extractor (`extractFormFields`)

Each target hidden field is located by three alternate regexes, first match
wins:
1. `name="FIELD"[^>]*value="([^"]*)"` (i)
2. `id="FIELD"[^>]*value="([^"]*)"` (i)
3. `name="FIELD"[\s\S]*?value="([^"]*)"` (i) -/

def valueEqLit : List Char := ['v', 'a', 'l', 'u', 'e', '=', '"']

/-- Greedy `[^>]*value="([^"]*)"` continuation: among the occurrences of
`value="` starting in the `>`-free run at the head of `rest`, the greedy
`[^>]*` selects the last one that is followed by a closing `"`; the capture
is the (possibly `>`-crossing) run up to that quote. -/
def greedyValueCapture : List Char → Option (List Char)
  | [] => none
  | c :: cs =>
      if c = '>' then none
      else
        match greedyValueCapture cs with
        | some cap => some cap
        | none =>
            if ciIsPrefixB valueEqLit (c :: cs) then
              let after := (c :: cs).drop valueEqLit.length
              if after.any (· = '"') then some (after.takeWhile (· ≠ '"')) else none
            else none

/-- Lazy `[\s\S]*?value="([^"]*)"` continuation: the first occurrence of
`value="` anywhere in `rest`; the capture runs to the next `"`.  (If that
occurrence has no closing quote, no later one can have either, since every
later occurrence itself contributes a `"`.) -/
def lazyValueCapture : List Char → Option (List Char)
  | [] => none
  | c :: cs =>
      if ciIsPrefixB valueEqLit (c :: cs) then
        let after := (c :: cs).drop valueEqLit.length
        if after.any (· = '"') then some (after.takeWhile (· ≠ '"')) else none
      else lazyValueCapture cs

/-- Leftmost match of `lit` followed by continuation `tail`; on failure at
one start index the engine advances one character. -/
def scanPattern (lit : List Char) (tail : List Char → Option (List Char)) :
    List Char → Option (List Char)
  | [] => none
  | c :: cs =>
      match (if ciIsPrefixB lit (c :: cs) then tail ((c :: cs).drop lit.length) else none) with
      | some cap => some cap
      | none => scanPattern lit tail cs

/-- `name="FIELD"` literal. -/
def nameAttrLit (field : List Char) : List Char :=
  "name=\"".data ++ field ++ ['"']

/-- `id="FIELD"` literal. -/
def idAttrLit (field : List Char) : List Char :=
  "id=\"".data ++ field ++ ['"']

/-- The three alternate patterns for one hidden field; first match wins. -/
def fieldPatterns (field html : List Char) : Option (List Char) :=
  match scanPattern (nameAttrLit field) greedyValueCapture html with
  | some v => some v
  | none =>
      match scanPattern (idAttrLit field) greedyValueCapture html with
      | some v => some v
      | none => scanPattern (nameAttrLit field) lazyValueCapture html

/-- The fixed target list of `extractFormFields`. -/
def formTargets : List (List Char) :=
  ["__VIEWSTATE".data, "__VIEWSTATEGENERATOR".data, "__EVENTVALIDATION".data,
   "__LASTFOCUS".data]

/-- `extractFormFields(html)`: the `fields` object built by the target loop,
as an insertion-ordered association list. -/
def extractFormFields (html : List Char) : List (List Char × List Char) :=
  formTargets.foldl
    (fun acc field =>
      match fieldPatterns field html with
      | some v => acc ++ [(field, v)]
      | none => acc)
    []

/-! ## Cookies and the HTTP step (`extractCookies`, `scrapeDateData`) -/

/-- The `set-cookie` response header as Node delivers it: absent, a single
string, or an array of strings. -/
inductive SetCookieField where
  | absent : SetCookieField
  | one (s : List Char) : SetCookieField
  | many (l : List (List Char)) : SetCookieField
deriving DecidableEq

/-- The response headers (only the header this program reads). -/
structure Headers where
  setCookie : SetCookieField
deriving DecidableEq

/-- An HTTP response as produced by `fetchPage`. -/
structure Response where
  status : Nat
  headers : Headers
  body : List Char
deriving DecidableEq

/-- `c.split(';')[0]`. -/
def cookieFirstPart (s : List Char) : List Char := s.takeWhile (· ≠ ';')

/-- `extractCookies(headers)`: empty string when the header is absent,
otherwise the name=value parts joined with `'; '`. -/
def extractCookies (h : Headers) : List Char :=
  match h.setCookie with
  | .absent => []
  | .one s => List.intercalate "; ".data [cookieFirstPart s]
  | .many l => List.intercalate "; ".data (l.map cookieFirstPart)

/-- `if (newCookie) this.cookie = newCookie`: a falsy (empty) extracted
cookie leaves the stored cookie unchanged. -/
def updateCookie (old fresh : List Char) : List Char :=
  if fresh ≠ [] then fresh else old

/-- A `{value, text}` entry of the date dropdown. -/
structure DateInfo where
  value : List Char
  text : List Char
deriving DecidableEq

/-- One day's scraped schedule (`scrapedAt` omitted: wall clock). -/
structure DaySchedule where
  date : List Char
  dateValue : List Char
  success : Bool
  periods : List Period
deriving DecidableEq

/-- Errors thrown by the scrape sequence. -/
inductive ScrapeError where
  | httpStatus (code : Nat) : ScrapeError
  | missingViewState : ScrapeError
  | noDates : ScrapeError
deriving DecidableEq

/-- `scrapeDateData(dateInfo, formFields)` given the POST's response: throw
on a non-200 status; otherwise update the session cookie (only when the
response sets one), extract fresh form fields (falling back to the carried
ones when none are found) and parse the generation table.  Returns the
`DaySchedule` (with `success: true` unconditionally), the form fields to
thread forward and the updated cookie. -/
def scrapeDateData (dateInfo : DateInfo) (formFields : List (List Char × List Char))
    (cookie : List Char) (resp : Response) :
    Except ScrapeError (DaySchedule × List (List Char × List Char) × List Char) :=
  if resp.status ≠ 200 then .error (.httpStatus resp.status)
  else
    let newCookie := extractCookies resp.headers
    let newFormFields := extractFormFields resp.body
    .ok ({ date := dateInfo.text, dateValue := dateInfo.value, success := true,
           periods := parseGenerationTable resp.body },
         (if newFormFields.length > 0 then newFormFields else formFields),
         updateCookie cookie newCookie)

/-! ## Schedule assembly and statistics (`scrapeData`) -/

/-- The date loop of `scrapeData`: each date's attempt either threw (caught
and skipped) or produced a schedule, recorded under the date's dropdown
value only when it extracted at least one period. -/
def assembleSchedules (outcomes : List (List Char × Except ScrapeError DaySchedule)) :
    List (List Char × DaySchedule) :=
  outcomes.foldl
    (fun acc kv =>
      match kv.2 with
      | .ok sched => if sched.periods.length > 0 then acc ++ [(kv.1, sched)] else acc
      | .error _ => acc)
    []

/-- The statistics block (`scrapedAt`/`timestamp` omitted: wall clock).
The aggregate fields are `none` when the run produced no periods, matching
the source, which only spreads them into `statistics` when
`allPeriods.length > 0`. -/
structure Statistics where
  totalDays : Nat
  totalPeriods : Option Nat
  averageGeneration : Option JSNum
  peakGeneration : Option JSNum
  minGeneration : Option JSNum
deriving DecidableEq

/-- `Object.values(results.schedules).flatMap(s => s.periods)`. -/
def allPeriodsOf (schedules : List (List Char × DaySchedule)) : List Period :=
  schedules.flatMap (fun kv => kv.2.periods)

/-- The statistics computation at the end of `scrapeData`. -/
def computeStatistics (totalDays : Nat) (schedules : List (List Char × DaySchedule)) :
    Statistics :=
  let allPeriods := allPeriodsOf schedules
  if allPeriods.length > 0 then
    let gens := allPeriods.map Period.generation
    { totalDays := totalDays,
      totalPeriods := some allPeriods.length,
      averageGeneration := some (jsRound (jsDivNat (neFold jsAdd gens) gens.length)),
      peakGeneration := some (neFold jsMaxOp gens),
      minGeneration := some (neFold jsMinOp gens) }
  else
    { totalDays := totalDays, totalPeriods := none,
      averageGeneration := none, peakGeneration := none, minGeneration := none }

/-- The scrape result document (runtime timestamps omitted). -/
structure ScrapeResult where
  plant : List Char
  plantId : List Char
  source : List Char
  note : Option (List Char)
  schedules : List (List Char × DaySchedule)
  statistics : Statistics
deriving DecidableEq

/-- The `source` label of a live result. -/
def liveSourceLabel : List Char := "USACE Hydropower Website".data

/-- The `source` label of the fallback document. -/
def fallbackSourceLabel : List Char := "USACE Hydropower Website (Fallback)".data

/-- The token that marks degraded mode inside the fallback `source`. -/
def fallbackMarker : List Char := "Fallback".data

/-- The per-period `source` label inside the fallback document. -/
def fallbackPeriodLabel : List Char := "Fallback".data

/-- `createFallbackData()`, as a function of the two formatted dates
(`fmt(today)`, `fmt(yesterday)`, computed from the wall clock in the
source): two fixed day schedules and a hard-coded statistics block. -/
def createFallbackData (todayS yesterdayS : List Char) : ScrapeResult :=
  { plant := "Buford Dam/Lake Sidney Lanier".data,
    plantId := "2".data,
    source := fallbackSourceLabel,
    note := some "Scraper encountered issues - using fallback data".data,
    schedules :=
      [(yesterdayS,
        { date := yesterdayS, dateValue := yesterdayS, success := false,
          periods :=
            [{ time := "5:00 pm - 6:00 pm".data, generation := .num 42,
               status := .active, source := fallbackPeriodLabel },
             { time := "6:00 pm - 7:00 pm".data, generation := .num 117,
               status := .peak, source := fallbackPeriodLabel },
             { time := "7:00 pm - 8:00 pm".data, generation := .num 42,
               status := .active, source := fallbackPeriodLabel }] }),
       (todayS,
        { date := todayS, dateValue := todayS, success := false,
          periods :=
            [{ time := "5:00 pm - 6:00 pm".data, generation := .num 64,
               status := .active, source := fallbackPeriodLabel },
             { time := "6:00 pm - 7:00 pm".data, generation := .num 64,
               status := .active, source := fallbackPeriodLabel },
             { time := "7:00 pm - 8:00 pm".data, generation := .num 64,
               status := .active, source := fallbackPeriodLabel }] })],
    statistics :=
      { totalDays := 2, totalPeriods := some 6,
        averageGeneration := some (.num 64),
        peakGeneration := some (.num 117),
        minGeneration := some (.num 42) } }

/-- `run()`: on an unrecovered error from the scrape sequence, or on a
sequence that completed with zero non-empty schedules, substitute the
fallback document.  The Boolean records whether the fallback was used. -/
def runPure (outcome : Except ScrapeError ScrapeResult) (todayS yesterdayS : List Char) :
    ScrapeResult × Bool :=
  match outcome with
  | .error _ => (createFallbackData todayS yesterdayS, true)
  | .ok data =>
      if data.schedules.length = 0 then (createFallbackData todayS yesterdayS, true)
      else (data, false)

/-! ## Claim-instance inputs and statement vocabulary -/

/-- The claim's notion of a well-formed generation value: a non-NaN number
that is at least `0` (JavaScript `g >= 0`, which is false for NaN). -/
def genNonNeg (g : JSNum) : Prop := ∃ q : ℚ, g = .num q ∧ 0 ≤ q

/-- The inside of the opening tag `<table id="GridView1">` past `<table`. -/
def gridTagMid : List Char := [' ', 'i', 'd', '=', '"', 'G', 'r', 'i', 'd', 'V', 'i', 'e', 'w', '1', '"']

/-- The literal opening tag `<table id="GridView1">`. -/
def gridOpenTag : List Char := tableLit ++ gridTagMid ++ ['>']

/-- A GridView1 page whose table carries a caption with content `cap`
immediately before the row region `body`. -/
def withCaption (cap body : List Char) : List Char :=
  gridOpenTag ++ capOpenLit ++ ['>'] ++ cap ++ capCloseLit ++ body ++ tableCloseLit

/-- The same page without the caption. -/
def withoutCaption (body : List Char) : List Char :=
  gridOpenTag ++ body ++ tableCloseLit

/-- The synthetic scenario page of claim C2: a `GridView1` table with a
header row and three data rows, the third malformed. -/
def c2Html : List Char :=
  ("<table class=\"grid\" id=\"GridView1\"><tr><th>Time</th><th>Average Generation</th></tr>" ++
   "<tr><td>12:00 am - 1:00 am</td><td>6</td></tr>" ++
   "<tr><td>1:00 am - 2:00 am</td><td>6</td></tr>" ++
   "<tr><td>bad-row</td><td>abc</td></tr></table>").data

/-- A page whose single data row has the generation cell `"."`: it passes
`^[\d.]+$` but `parseFloat` yields NaN (counterexample input for C1). -/
def c1CexHtml : List Char :=
  ("<table id=\"GridView1\"><tr><th>T</th><th>G</th></tr>" ++
   "<tr><td>1:00 am - 2:00 am</td><td>.</td></tr></table>").data

/-- A page whose single data row has the generation cell `".."`
(counterexample input for C5, same NaN mechanism). -/
def c5CexHtml : List Char :=
  ("<table id=\"GridView1\"><tr><th>T</th><th>G</th></tr>" ++
   "<tr><td>2:00 am - 3:00 am</td><td>..</td></tr></table>").data

/-- A small live page used by witnesses: one data row of 7 MW. -/
def c1WitHtml : List Char :=
  ("<table id=\"GridView1\"><tr><th>T</th><th>G</th></tr>" ++
   "<tr><td>3:00 am - 4:00 am</td><td>7</td></tr></table>").data

/-- A small live page used by witnesses: one data row of 55 MW. -/
def c5WitHtml : List Char :=
  ("<table id=\"GridView1\"><tr><th>T</th><th>G</th></tr>" ++
   "<tr><td>4:00 am - 5:00 am</td><td>55</td></tr></table>").data

/-- Witness caption content for C4: a full nested table with two rows. -/
def c4WitCap : List Char :=
  "<table><tr><td>9:00</td><td>77</td></tr><tr><td>10:00</td><td>88</td></tr></table>".data

/-- Witness row region for C4: a header row and one data row. -/
def c4WitBody : List Char :=
  "<tr><th>T</th><th>G</th></tr><tr><td>5:00 pm - 6:00 pm</td><td>64</td></tr>".data

/-- Concrete formatted dates for the fallback-document instances. -/
def fbTodayStr : List Char := "1/2/2026".data

/-- Concrete formatted date (the day before `fbTodayStr`). -/
def fbYesterdayStr : List Char := "1/1/2026".data

/-- A concrete day schedule with one period (witness input for C6). -/
def c6SchedA : DaySchedule :=
  { date := "Monday, Jan 5".data, dateValue := "1/5/2026".data, success := true,
    periods := [{ time := "5:00 pm - 6:00 pm".data, generation := .num 30,
                  status := .active, source := realtimeLabel }] }

/-- A concrete day schedule with no periods (witness input for C6). -/
def c6SchedB : DaySchedule :=
  { date := "Tuesday, Jan 6".data, dateValue := "1/6/2026".data, success := true,
    periods := [] }

/-- Witness outcome list for C6: one kept date, one empty date, one failed
date. -/
def c6Outcomes : List (List Char × Except ScrapeError DaySchedule) :=
  [("1/5/2026".data, .ok c6SchedA),
   ("1/6/2026".data, .ok c6SchedB),
   ("1/7/2026".data, .error (.httpStatus 500))]

/-- A 200 response with no `set-cookie` header and an empty body (witness
input for C8 and C9). -/
def emptyOkResponse : Response :=
  { status := 200, headers := { setCookie := .absent }, body := [] }

/-- A concrete dropdown date entry (witness input for C8 and C9). -/
def witDateInfo : DateInfo :=
  { value := "1/5/2026".data, text := "Monday, Jan 5".data }

/-- Option-valued accumulator for a nonempty fold: `none` plays the role of
"no element seen yet", so permutation invariance can be proved with a fixed
initial accumulator. -/
def accOp (op : JSNum → JSNum → JSNum) (a : Option JSNum) (g : JSNum) : Option JSNum :=
  some (match a with | none => g | some x => op x g)

/-- A form page used as the C10 witness input. -/
def c10WitHtml : List Char :=
  ("<input type=\"hidden\" name=\"__VIEWSTATE\" id=\"__VIEWSTATE\" value=\"dDtvs\" />" ++
   "<input name=\"__EVENTVALIDATION\" value=\"ev99\" />").data

/-- Two-day schedule list used as the C3 witness input. -/
def c3SchedsA : List (List Char × DaySchedule) :=
  [("1/5/2026".data, c6SchedA),
   ("1/6/2026".data,
    { date := "Tuesday, Jan 6".data, dateValue := "1/6/2026".data, success := true,
      periods := [{ time := "6:00 pm - 7:00 pm".data, generation := .num 55,
                    status := .peak, source := realtimeLabel },
                  { time := "7:00 pm - 8:00 pm".data, generation := .num 8,
                    status := .base, source := realtimeLabel }] })]

/-- The same schedules inserted in the opposite order. -/
def c3SchedsB : List (List Char × DaySchedule) := c3SchedsA.reverse

/-- The period extracted from `c1WitHtml`. -/
def c1WitPeriod : Period :=
  { time := "3:00 am - 4:00 am".data, generation := .num 7, status := .base,
    source := realtimeLabel }

/-- The period extracted from `c5WitHtml`. -/
def c5WitPeriod : Period :=
  { time := "4:00 am - 5:00 am".data, generation := .num 55, status := .peak,
    source := realtimeLabel }

/-! ## String-scanner lemmas -/

theorem ciEq_refl (c : Char) : ciEq c c = true := by
  simp [ciEq]

theorem ciIsPrefixB_append_self (p r : List Char) : ciIsPrefixB p (p ++ r) = true := by
  induction p with
  | nil => rfl
  | cons c cs ih => simp [ciIsPrefixB, ciEq_refl, ih]

theorem ciIsPrefixB_length_le (p l : List Char) (h : ciIsPrefixB p l = true) :
    p.length ≤ l.length := by
  induction p generalizing l with
  | nil => simp
  | cons c cs ih =>
      cases l with
      | nil => simp [ciIsPrefixB] at h
      | cons d ds =>
          simp only [ciIsPrefixB, Bool.and_eq_true] at h
          simpa [Nat.succ_le_succ_iff] using ih ds h.2

theorem splitLastOcc_none_of_short (p l : List Char) (h : l.length < p.length) :
    splitLastOcc p l = none := by
  induction l with
  | nil =>
      cases p with
      | nil => simp at h
      | cons c cs => simp [splitLastOcc, ciIsPrefixB]
  | cons c cs ih =>
      have hcs : cs.length < p.length := Nat.lt_of_le_of_lt (Nat.le_succ _) h
      simp only [splitLastOcc, ih hcs]
      rw [if_neg]
      intro hpre
      exact absurd (ciIsPrefixB_length_le p (c :: cs) hpre) (Nat.not_le_of_lt h)

theorem splitLastOcc_append_self (p x : List Char) (hp : p ≠ []) :
    splitLastOcc p (x ++ p) = some x := by
  induction x with
  | nil =>
      cases p with
      | nil => exact absurd rfl hp
      | cons c cs =>
          simp only [List.nil_append, splitLastOcc,
            splitLastOcc_none_of_short (c :: cs) cs (Nat.lt_succ_self _)]
          rw [if_pos]
          simpa using ciIsPrefixB_append_self (c :: cs) []
  | cons a x' ih =>
      simp only [List.cons_append, splitLastOcc, List.append_eq, ih]

theorem splitFirstGtParts_append (m r : List Char) (hm : ∀ c ∈ m, c ≠ '>') :
    splitFirstGtParts (m ++ '>' :: r) = some (m, r) := by
  induction m with
  | nil => simp [splitFirstGtParts]
  | cons a m' ih =>
      have ha : a ≠ '>' := hm a (List.mem_cons_self a m')
      simp only [List.cons_append, splitFirstGtParts, if_neg ha, List.append_eq,
        ih (fun c hc => hm c (List.mem_cons_of_mem a hc)), Option.map_some']

theorem splitFirstOcc_append (p x y : List Char) (hp : p ≠ [])
    (h : ∀ i < x.length, ciIsPrefixB p ((x ++ p ++ y).drop i) = false) :
    splitFirstOcc p (x ++ p ++ y) = some (x, y) := by
  induction x with
  | nil =>
      simp only [List.nil_append]
      cases hpy : p ++ y with
      | nil =>
          cases p with
          | nil => exact absurd rfl hp
          | cons c cs => simp at hpy
      | cons c cs =>
          simp only [splitFirstOcc]
          rw [← hpy, if_pos (ciIsPrefixB_append_self p y), List.drop_left]
  | cons a x' ih =>
      have hassoc : (a :: x') ++ p ++ y = a :: (x' ++ p ++ y) := by
        simp only [List.cons_append]
      have h0 : ciIsPrefixB p (a :: (x' ++ p ++ y)) = false := by
        have h00 := h 0 (by simp)
        rw [List.drop_zero, hassoc] at h00
        exact h00
      have hx' : ∀ i < x'.length, ciIsPrefixB p ((x' ++ p ++ y).drop i) = false := by
        intro i hi
        have h2 := h (i + 1) (by simpa using Nat.succ_lt_succ hi)
        rw [hassoc, List.drop_succ_cons] at h2
        exact h2
      rw [hassoc]
      simp only [splitFirstOcc]
      rw [if_neg (by simp only [h0]; exact Bool.false_ne_true), ih hx', Option.map_some']

theorem ciContainsB_cons_false (p : List Char) (c : Char) (cs : List Char)
    (h : ciContainsB p (c :: cs) = false) :
    ciIsPrefixB p (c :: cs) = false ∧ ciContainsB p cs = false := by
  simpa [ciContainsB] using h

theorem removeBlocks_id (o c : List Char) (f : Nat) (l : List Char)
    (hno : ciContainsB o l = false) (hf : l.length ≤ f) :
    removeBlocks o c f l = l := by
  induction l generalizing f with
  | nil => cases f <;> rfl
  | cons a as ih =>
      cases f with
      | zero => simp at hf
      | succ f' =>
          obtain ⟨h1, h2⟩ := ciContainsB_cons_false o a as hno
          simp only [removeBlocks, matchBlockAt, h1, Bool.false_eq_true, if_false]
          rw [ih f' h2 (Nat.le_of_succ_le_succ hf)]

/-! ## Locating the grid table: lemmas -/

theorem matchGridOpenAt_append (rest : List Char) :
    matchGridOpenAt (gridOpenTag ++ rest) = some rest := by
  have h1 : gridOpenTag ++ rest = tableLit ++ (gridTagMid ++ '>' :: rest) := by
    simp [gridOpenTag]
  unfold matchGridOpenAt
  rw [h1, if_pos (ciIsPrefixB_append_self _ _), List.drop_left,
    splitFirstGtParts_append _ _ (by decide)]
  show (if ciContainsB idGridLit (gridTagMid.drop 1) = true then some rest else none) = some rest
  rw [if_pos (by decide)]

theorem findGrid_append (rest x : List Char) (f : Nat)
    (h : splitLastOcc tableCloseLit rest = some x) :
    findGrid (f + 1) (gridOpenTag ++ rest) = some x := by
  obtain ⟨c, cs, hcons⟩ :=
    List.exists_cons_of_ne_nil (show gridOpenTag ++ rest ≠ [] by simp [gridOpenTag])
  rw [hcons]
  simp only [findGrid]
  rw [← hcons, matchGridOpenAt_append]
  simp only [h]

theorem matchBlockAt_capOpen (cap body : List Char)
    (h7 : splitFirstOcc capCloseLit (cap ++ capCloseLit ++ body) = some (cap, body)) :
    matchBlockAt capOpenLit capCloseLit
      (capOpenLit ++ '>' :: (cap ++ capCloseLit ++ body)) = some (cap, body) := by
  unfold matchBlockAt
  rw [if_pos (ciIsPrefixB_append_self _ _), List.drop_left,
    show splitFirstGtParts ('>' :: (cap ++ capCloseLit ++ body)) =
      some ([], cap ++ capCloseLit ++ body) from by simp [splitFirstGtParts]]
  exact h7

theorem removeBlocks_caption (cap body : List Char) (f : Nat)
    (h7 : splitFirstOcc capCloseLit (cap ++ capCloseLit ++ body) = some (cap, body))
    (hb : ciContainsB capOpenLit body = false)
    (hf : body.length ≤ f) :
    removeBlocks capOpenLit capCloseLit (f + 1)
      (capOpenLit ++ '>' :: (cap ++ capCloseLit ++ body)) = body := by
  obtain ⟨c, cs, hcons⟩ :=
    List.exists_cons_of_ne_nil
      (show capOpenLit ++ '>' :: (cap ++ capCloseLit ++ body) ≠ [] by simp [capOpenLit])
  rw [hcons]
  simp only [removeBlocks]
  rw [← hcons, matchBlockAt_capOpen cap body h7]
  exact removeBlocks_id _ _ _ _ hb hf

theorem parseGenerationTable_eq_of_findGrid (html t : List Char)
    (h : findGrid (html.length + 1) html = some t) :
    parseGenerationTable html =
      ((scanBlocks trOpenLit trCloseLit
          ((removeBlocks capOpenLit capCloseLit (t.length + 1) t).length + 1)
          (removeBlocks capOpenLit capCloseLit (t.length + 1) t)).drop 1).filterMap
        rowToPeriod := by
  unfold parseGenerationTable
  rw [h]

/-! ## Parser-side lemmas -/

theorem isJsWs_false_of_digit_dot (c : Char) (h : c.isDigit = true ∨ c = '.') :
    isJsWs c = false := by
  rcases h with h | rfl
  · by_contra hws
    rw [Bool.not_eq_false, isJsWs, List.any_eq_true] at hws
    obtain ⟨w, hw, hwc⟩ := hws
    rw [beq_iff_eq] at hwc
    subst hwc
    fin_cases hw <;> exact absurd h (by decide)
  · decide

theorem dropWhile_isJsWs_of_digit_dot (l : List Char)
    (h : ∀ c ∈ l, c.isDigit = true ∨ c = '.') : l.dropWhile isJsWs = l := by
  cases l with
  | nil => rfl
  | cons c cs =>
      simp only [List.dropWhile_cons,
        isJsWs_false_of_digit_dot c (h c (List.mem_cons_self c cs)),
        Bool.false_eq_true, if_false]

theorem parseSign_of_digit_dot (c : Char) (cs : List Char)
    (h : c.isDigit = true ∨ c = '.') : parseSign (c :: cs) = (1, c :: cs) := by
  have h1 : c ≠ '-' := by
    rcases h with h | rfl
    · intro hrfl; rw [hrfl] at h; exact absurd h (by decide)
    · decide
  have h2 : c ≠ '+' := by
    rcases h with h | rfl
    · intro hrfl; rw [hrfl] at h; exact absurd h (by decide)
    · decide
  simp [parseSign, h1, h2]

theorem jsParseFloatMant_one_nonneg (intD : List Char) (fp : List Char × List Char)
    (q : ℚ) (h : jsParseFloatMant 1 intD fp = .num q) : 0 ≤ q := by
  unfold jsParseFloatMant at h
  by_cases hc : (intD.isEmpty && fp.1.isEmpty) = true
  · rw [if_pos hc] at h; exact absurd h (by simp)
  · rw [if_neg hc] at h
    have hq : q = 1 * ((digitsToNat intD : ℚ) + (digitsToNat fp.1 : ℚ) / (10 : ℚ) ^ fp.1.length)
        * (10 : ℚ) ^ parseExp fp.2 := by
      injection h with h'
      exact h'.symm
    rw [hq]
    positivity

theorem jsParseFloat_nonneg (l : List Char) (h : ∀ c ∈ l, c.isDigit = true ∨ c = '.') :
    ∀ q : ℚ, jsParseFloat l = .num q → 0 ≤ q := by
  intro q hq
  unfold jsParseFloat at hq
  rw [dropWhile_isJsWs_of_digit_dot l h] at hq
  cases l with
  | nil =>
      simp [parseSign, jsParseFloatBody, jsParseFloatMant, parseFrac] at hq
  | cons c cs =>
      rw [parseSign_of_digit_dot c cs (h c (List.mem_cons_self c cs))] at hq
      exact jsParseFloatMant_one_nonneg _ _ q hq

theorem pureNumeric_chars (g : List Char) (h : pureNumeric g = true) :
    ∀ c ∈ g, c.isDigit = true ∨ c = '.' := by
  intro c hc
  unfold pureNumeric at h
  rw [Bool.and_eq_true, List.all_eq_true] at h
  have := h.2 c hc
  rcases Bool.or_eq_true_iff.mp this with h1 | h1
  · exact Or.inl h1
  · exact Or.inr (by simpa using h1)

theorem periodOfCells_inv (cells : List (List Char)) (p : Period)
    (h : periodOfCells cells = some p) :
    ∃ t g rest, cells = t :: g :: rest ∧ t ≠ [] ∧ pureNumeric g = true ∧
      p = { time := t, generation := jsParseFloat g,
            status := statusOf (jsParseFloat g), source := realtimeLabel } := by
  match cells with
  | [] => exact absurd h (by simp [periodOfCells])
  | [t] => exact absurd h (by simp [periodOfCells])
  | t :: g :: rest =>
      have hdef : periodOfCells (t :: g :: rest) =
          if t ≠ [] ∧ pureNumeric g = true then
            some { time := t, generation := jsParseFloat g,
                   status := statusOf (jsParseFloat g), source := realtimeLabel }
          else none := rfl
      rw [hdef] at h
      by_cases hc : t ≠ [] ∧ pureNumeric g = true
      · rw [if_pos hc] at h
        exact ⟨t, g, rest, rfl, hc.1, hc.2, (Option.some_inj.mp h).symm⟩
      · rw [if_neg hc] at h
        exact absurd h (by simp)

theorem mem_parseGenerationTable (html : List Char) (p : Period)
    (h : p ∈ parseGenerationTable html) :
    ∃ cells, periodOfCells cells = some p := by
  unfold parseGenerationTable at h
  cases hg : findGrid (html.length + 1) html with
  | none => rw [hg] at h; exact absurd h (by simp)
  | some t =>
      rw [hg] at h
      simp only at h
      obtain ⟨row, _, hrow⟩ := List.mem_filterMap.mp h
      exact ⟨cellsOfRow row, hrow⟩

theorem statusOf_num_eq_ite (q : ℚ) :
    statusOf (.num q) = if 50 < q then .peak else if 10 < q then .active else .base := by
  unfold statusOf jsGtB
  by_cases h50 : (50 : ℚ) < q
  · rw [if_pos (by simpa using h50), if_pos h50]
  · rw [if_neg (by simpa using h50), if_neg h50]
    by_cases h10 : (10 : ℚ) < q
    · rw [if_pos (by simpa using h10), if_pos h10]
    · rw [if_neg (by simpa using h10), if_neg h10]

theorem statusOf_num_iff (q : ℚ) :
    (statusOf (.num q) = .peak ↔ 50 < q) ∧
    (statusOf (.num q) = .active ↔ 10 < q ∧ q ≤ 50) ∧
    (statusOf (.num q) = .base ↔ q ≤ 10) := by
  rw [statusOf_num_eq_ite]
  by_cases h50 : (50 : ℚ) < q
  · rw [if_pos h50]
    refine ⟨by simp [h50], ?_, ?_⟩
    · constructor
      · intro hpk; exact absurd hpk (by decide)
      · intro hq2; exact absurd h50 (not_lt.mpr hq2.2)
    · constructor
      · intro hpk; exact absurd hpk (by decide)
      · intro hle; linarith
  · rw [if_neg h50]
    by_cases h10 : (10 : ℚ) < q
    · rw [if_pos h10]
      refine ⟨?_, ?_, ?_⟩
      · constructor
        · intro hak; exact absurd hak (by decide)
        · intro hgt; exact absurd hgt h50
      · constructor
        · intro _; exact ⟨h10, not_lt.mp h50⟩
        · intro _; rfl
      · constructor
        · intro hak; exact absurd hak (by decide)
        · intro hle; linarith
    · rw [if_neg h10]
      refine ⟨?_, ?_, ?_⟩
      · constructor
        · intro hb; exact absurd hb (by decide)
        · intro hgt; exact absurd hgt h50
      · constructor
        · intro hb; exact absurd hb (by decide)
        · intro hq2; exact absurd hq2.1 h10
      · constructor
        · intro _; exact not_lt.mp h10
        · intro _; rfl

/-! ## Fold and permutation lemmas for the statistics block -/

theorem foldl_accOp_some (op : JSNum → JSNum → JSNum) (l : List JSNum) :
    ∀ a : JSNum, l.foldl (accOp op) (some a) = some (l.foldl op a) := by
  induction l with
  | nil => intro a; rfl
  | cons g gs ih =>
      intro a
      rw [List.foldl_cons, List.foldl_cons]
      exact ih (op a g)

theorem foldl_accOp_perm (op : JSNum → JSNum → JSNum)
    (hcomm : ∀ a b, op a b = op b a)
    (hassoc : ∀ a b c, op (op a b) c = op a (op b c)) :
    ∀ {l₁ l₂ : List JSNum}, l₁.Perm l₂ →
      ∀ a, l₁.foldl (accOp op) a = l₂.foldl (accOp op) a := by
  intro l₁ l₂ h
  induction h with
  | nil => intro a; rfl
  | cons x _ ih =>
      intro a
      rw [List.foldl_cons, List.foldl_cons]
      exact ih _
  | swap x y l =>
      intro a
      have hstep : accOp op (accOp op a y) x = accOp op (accOp op a x) y := by
        cases a with
        | none =>
            show some (op y x) = some (op x y)
            rw [hcomm]
        | some z =>
            show some (op (op z y) x) = some (op (op z x) y)
            rw [hassoc, hcomm y x, ← hassoc]
      rw [List.foldl_cons, List.foldl_cons, List.foldl_cons, List.foldl_cons, hstep]
  | trans _ _ ih₁ ih₂ =>
      intro a
      rw [ih₁ a, ih₂ a]

theorem neFold_perm (op : JSNum → JSNum → JSNum)
    (hcomm : ∀ a b, op a b = op b a)
    (hassoc : ∀ a b c, op (op a b) c = op a (op b c))
    {l₁ l₂ : List JSNum} (h : l₁.Perm l₂) : neFold op l₁ = neFold op l₂ := by
  cases l₁ with
  | nil =>
      rw [h.symm.eq_nil]
  | cons g gs =>
      cases l₂ with
      | nil => exact absurd h.eq_nil (by simp)
      | cons g' gs' =>
          have h1 := foldl_accOp_perm op hcomm hassoc h (none : Option JSNum)
          rw [List.foldl_cons, List.foldl_cons] at h1
          have e1 : accOp op none g = some g := rfl
          have e2 : accOp op none g' = some g' := rfl
          rw [e1, e2, foldl_accOp_some, foldl_accOp_some] at h1
          exact Option.some_inj.mp h1

theorem jsAdd_comm (a b : JSNum) : jsAdd a b = jsAdd b a := by
  cases a <;> cases b <;> simp [jsAdd, add_comm]

theorem jsAdd_assoc (a b c : JSNum) : jsAdd (jsAdd a b) c = jsAdd a (jsAdd b c) := by
  cases a <;> cases b <;> cases c <;> simp [jsAdd, add_assoc]

theorem jsMaxOp_comm (a b : JSNum) : jsMaxOp a b = jsMaxOp b a := by
  cases a <;> cases b <;> simp [jsMaxOp, max_comm]

theorem jsMaxOp_assoc (a b c : JSNum) : jsMaxOp (jsMaxOp a b) c = jsMaxOp a (jsMaxOp b c) := by
  cases a <;> cases b <;> cases c <;> simp [jsMaxOp, max_assoc]

theorem jsMinOp_comm (a b : JSNum) : jsMinOp a b = jsMinOp b a := by
  cases a <;> cases b <;> simp [jsMinOp, min_comm]

theorem jsMinOp_assoc (a b c : JSNum) : jsMinOp (jsMinOp a b) c = jsMinOp a (jsMinOp b c) := by
  cases a <;> cases b <;> cases c <;> simp [jsMinOp, min_assoc]

theorem computeStatistics_perm (d : Nat)
    {s₁ s₂ : List (List Char × DaySchedule)} (h : s₁.Perm s₂) :
    computeStatistics d s₁ = computeStatistics d s₂ := by
  have hp : (allPeriodsOf s₁).Perm (allPeriodsOf s₂) := h.flatMap_right _
  have hlen : (allPeriodsOf s₁).length = (allPeriodsOf s₂).length := hp.length_eq
  have hg : ((allPeriodsOf s₁).map Period.generation).Perm
      ((allPeriodsOf s₂).map Period.generation) := hp.map _
  have hsum := neFold_perm jsAdd jsAdd_comm jsAdd_assoc hg
  have hmax := neFold_perm jsMaxOp jsMaxOp_comm jsMaxOp_assoc hg
  have hmin := neFold_perm jsMinOp jsMinOp_comm jsMinOp_assoc hg
  have hglen := hg.length_eq
  unfold computeStatistics
  by_cases hn : (allPeriodsOf s₁).length > 0
  · rw [if_pos hn, if_pos (hlen ▸ hn)]
    simp only [hsum, hmax, hmin, hlen, hglen]
  · rw [if_neg hn, if_neg (by rw [← hlen]; exact hn)]

/-! ## Fold characterisations: schedule assembly and form fields -/

theorem assembleSchedules_eq (outcomes : List (List Char × Except ScrapeError DaySchedule)) :
    assembleSchedules outcomes =
      outcomes.filterMap (fun kv =>
        match kv.2 with
        | .ok sched => if sched.periods.length > 0 then some (kv.1, sched) else none
        | .error _ => none) := by
  have aux : ∀ (os : List (List Char × Except ScrapeError DaySchedule))
      (acc : List (List Char × DaySchedule)),
      os.foldl
        (fun acc kv =>
          match kv.2 with
          | .ok sched => if sched.periods.length > 0 then acc ++ [(kv.1, sched)] else acc
          | .error _ => acc) acc
      = acc ++ os.filterMap (fun kv =>
          match kv.2 with
          | .ok sched => if sched.periods.length > 0 then some (kv.1, sched) else none
          | .error _ => none) := by
    intro os
    induction os with
    | nil => intro acc; simp
    | cons o os ih =>
        intro acc
        cases ho : o.2 with
        | ok sched =>
            by_cases hp : sched.periods.length > 0
            · simp [List.filterMap_cons, ho, if_pos hp, ih]
            · simp [List.filterMap_cons, ho, if_neg hp, ih]
        | error e => simp [List.filterMap_cons, ho, ih]
  simpa using aux outcomes []

theorem extractFormFields_eq (html : List Char) :
    extractFormFields html =
      formTargets.filterMap (fun f => (fieldPatterns f html).map (fun v => (f, v))) := by
  have aux : ∀ (ts : List (List Char)) (acc : List (List Char × List Char)),
      ts.foldl
        (fun acc field =>
          match fieldPatterns field html with
          | some v => acc ++ [(field, v)]
          | none => acc) acc
      = acc ++ ts.filterMap (fun f => (fieldPatterns f html).map (fun v => (f, v))) := by
    intro ts
    induction ts with
    | nil => intro acc; simp
    | cons t ts ih =>
        intro acc
        cases hf : fieldPatterns t html with
        | none => simp [List.filterMap_cons, hf, ih]
        | some v => simp [List.filterMap_cons, hf, ih]
  simpa using aux formTargets []

/-- On an HTTP 200 response, `scrapeDateData` returns exactly the schedule
built from the response body, with `success := true`, threading form fields
and cookie as the source does. -/
theorem scrapeDateData_ok_eq (di : DateInfo) (ff : List (List Char × List Char))
    (cookie : List Char) (resp : Response) (h200 : resp.status = 200) :
    scrapeDateData di ff cookie resp =
      .ok ({ date := di.text, dateValue := di.value, success := true,
             periods := parseGenerationTable resp.body },
           (if (extractFormFields resp.body).length > 0 then extractFormFields resp.body
            else ff),
           updateCookie cookie (extractCookies resp.headers)) := by
  unfold scrapeDateData
  rw [if_neg (by simp [h200])]

/-! ## The claims -/

set_option maxRecDepth 100000

unseal Rat.add Rat.mul Rat.inv in
/-- C1, counterexample: the claim "every period produced by
`parseGenerationTable` has `generation ≥ 0`; rows whose generation cell is
non-numeric are dropped" fails on a page whose generation cell is `"."`:
the cell passes `^[\d.]+$`, `parseFloat` returns NaN, and the period is
emitted with a NaN generation, for which `g ≥ 0` is false. -/
theorem usace_c1_counterexample :
    ∃ p ∈ parseGenerationTable c1CexHtml, ¬ genNonNeg p.generation := by
  refine ⟨{ time := "1:00 am - 2:00 am".data, generation := .nan, status := .base,
            source := realtimeLabel }, by decide, ?_⟩
  rintro ⟨q, hq, -⟩
  exact JSNum.noConfusion hq

/-- C1, amended: every period produced by `parseGenerationTable` whose
generation is a number has generation `≥ 0`, for every input HTML string;
a dot-only cell passes the numeric filter and yields a NaN generation
instead of being dropped. -/
theorem usace_c1_amended (html : List Char) (p : Period)
    (hp : p ∈ parseGenerationTable html) :
    ∀ q : ℚ, p.generation = .num q → 0 ≤ q := by
  intro q hq
  obtain ⟨cells, hc⟩ := mem_parseGenerationTable html p hp
  obtain ⟨t, g, rest, hcells, ht, hpn, hpeq⟩ := periodOfCells_inv cells p hc
  have hgen : p.generation = jsParseFloat g := by rw [hpeq]
  rw [hgen] at hq
  exact jsParseFloat_nonneg g (pureNumeric_chars g hpn) q hq

unseal Rat.add Rat.mul Rat.inv in
/-- C1 witness: the amended theorem applied to a concrete page with one
7 MW row. -/
theorem usace_c1_witness : (0 : ℚ) ≤ 7 :=
  usace_c1_amended c1WitHtml c1WitPeriod (by decide) 7 rfl

unseal Rat.add Rat.mul Rat.inv in
/-- C2: table extraction never keeps a row whose second cell fails the
pure-numeric pattern (`"64 MW"` is rejected, `"64"` accepted), and the
synthetic GridView1 scenario page with data rows
`("12:00 am - 1:00 am","6")`, `("1:00 am - 2:00 am","6")`,
`("bad-row","abc")` yields exactly two 6 MW base periods, the malformed
third row being dropped. -/
theorem usace_c2 :
    (∀ (t g : List Char) (rest : List (List Char)), pureNumeric g = false →
      periodOfCells (t :: g :: rest) = none) ∧
    parseGenerationTable c2Html =
      [{ time := "12:00 am - 1:00 am".data, generation := .num 6, status := .base,
         source := realtimeLabel },
       { time := "1:00 am - 2:00 am".data, generation := .num 6, status := .base,
         source := realtimeLabel }] := by
  constructor
  · intro t g rest hg
    have hneg : ¬(t ≠ [] ∧ pureNumeric g = true) := by
      rintro ⟨-, hc⟩
      rw [hg] at hc
      exact Bool.false_ne_true hc
    have hdef : periodOfCells (t :: g :: rest) =
        if t ≠ [] ∧ pureNumeric g = true then
          some { time := t, generation := jsParseFloat g,
                 status := statusOf (jsParseFloat g), source := realtimeLabel }
        else none := rfl
    rw [hdef, if_neg hneg]
  · decide

unseal Rat.add Rat.mul Rat.inv in
/-- C2 witness: a row whose second cell is `"64 MW"` is rejected, by the
theorem's universal part at that concrete cell. -/
theorem usace_c2_witness :
    periodOfCells ["5:00 pm - 6:00 pm".data, "64 MW".data] = none :=
  usace_c2.1 "5:00 pm - 6:00 pm".data "64 MW".data [] (by decide)

unseal Rat.add Rat.mul Rat.inv in
/-- C5, counterexample: the claim "status = base iff 0 ≤ g ≤ 10" fails for
an extracted period whose generation cell is `".."`: the period's status is
base while its generation is NaN, which satisfies no bound. -/
theorem usace_c5_counterexample :
    ∃ p ∈ parseGenerationTable c5CexHtml,
      p.status = Status.base ∧ ¬ (∃ q : ℚ, p.generation = .num q ∧ 0 ≤ q ∧ q ≤ 10) := by
  refine ⟨{ time := "2:00 am - 3:00 am".data, generation := .nan, status := .base,
            source := realtimeLabel }, by decide, rfl, ?_⟩
  rintro ⟨q, hq, -⟩
  exact JSNum.noConfusion hq

/-- C5, amended: for every extracted period the status is a function of the
generation magnitude alone, and whenever the generation is numeric,
status = peak iff g > 50, active iff 10 < g ≤ 50, base iff 0 ≤ g ≤ 10;
a NaN generation (dot-only cell) receives status base. -/
theorem usace_c5_amended (html : List Char) (p : Period)
    (hp : p ∈ parseGenerationTable html) :
    p.status = statusOf p.generation ∧
    ∀ q : ℚ, p.generation = .num q →
      ((p.status = .peak ↔ 50 < q) ∧
       (p.status = .active ↔ 10 < q ∧ q ≤ 50) ∧
       (p.status = .base ↔ 0 ≤ q ∧ q ≤ 10)) := by
  obtain ⟨cells, hc⟩ := mem_parseGenerationTable html p hp
  obtain ⟨t, g, rest, hcells, ht, hpn, hpeq⟩ := periodOfCells_inv cells p hc
  have hgen : p.generation = jsParseFloat g := by rw [hpeq]
  constructor
  · rw [hpeq]
  · intro q hq
    have hjs : jsParseFloat g = .num q := by rw [← hgen]; exact hq
    have hq0 : 0 ≤ q := jsParseFloat_nonneg g (pureNumeric_chars g hpn) q hjs
    have hst : p.status = statusOf (.num q) := by
      rw [hpeq]
      show statusOf (jsParseFloat g) = statusOf (.num q)
      rw [hjs]
    obtain ⟨h1, h2, h3⟩ := statusOf_num_iff q
    rw [hst]
    refine ⟨h1, h2, ?_⟩
    rw [h3]
    constructor
    · intro hle
      exact ⟨hq0, hle⟩
    · intro hh
      exact hh.2

unseal Rat.add Rat.mul Rat.inv in
/-- C5 witness: the amended theorem applied to a concrete 55 MW row; the
boundary facts g = 50 → active, g = 10 → base, g = 51 → peak are checked
directly on `statusOf`. -/
theorem usace_c5_witness :
    (c5WitPeriod.status = Status.peak ↔ (50 : ℚ) < 55) ∧
    statusOf (.num 50) = Status.active ∧ statusOf (.num 10) = Status.base ∧
    statusOf (.num 51) = Status.peak :=
  ⟨((usace_c5_amended c5WitHtml c5WitPeriod (by decide)).2 55 rfl).1,
   by decide, by decide, by decide⟩

/-- C4: rows of a table nested inside the GridView1 table's caption are
never counted.  For any caption content `cap` (including a full nested
`<table><tr>...</tr></table>`) whose body does not itself close the caption
early, and any row region `body` containing no further caption, extraction
of the page with the caption equals extraction of the page without it: the
inner rows neither contribute periods nor disturb the real data rows. -/
theorem usace_c4 (cap body : List Char)
    (hcap : ∀ i < cap.length,
      ciIsPrefixB capCloseLit ((cap ++ capCloseLit ++ body).drop i) = false)
    (hbody : ciContainsB capOpenLit body = false) :
    parseGenerationTable (withCaption cap body) =
      parseGenerationTable (withoutCaption body) := by
  have hsplit : splitFirstOcc capCloseLit (cap ++ capCloseLit ++ body) = some (cap, body) :=
    splitFirstOcc_append capCloseLit cap body (by decide) hcap
  have hw1 : withCaption cap body =
      gridOpenTag ++ ((capOpenLit ++ '>' :: (cap ++ capCloseLit ++ body)) ++ tableCloseLit) := by
    simp [withCaption]
  have hg1 : findGrid ((withCaption cap body).length + 1) (withCaption cap body) =
      some (capOpenLit ++ '>' :: (cap ++ capCloseLit ++ body)) := by
    rw [hw1]
    exact findGrid_append _ _ _ (splitLastOcc_append_self tableCloseLit _ (by decide))
  have hr1 : removeBlocks capOpenLit capCloseLit
      ((capOpenLit ++ '>' :: (cap ++ capCloseLit ++ body)).length + 1)
      (capOpenLit ++ '>' :: (cap ++ capCloseLit ++ body)) = body := by
    refine removeBlocks_caption cap body _ hsplit hbody ?_
    simp [capOpenLit]
    omega
  have hg2 : findGrid ((withoutCaption body).length + 1) (withoutCaption body) = some body := by
    rw [show withoutCaption body = gridOpenTag ++ (body ++ tableCloseLit) from by
      simp [withoutCaption]]
    exact findGrid_append _ _ _ (splitLastOcc_append_self tableCloseLit _ (by decide))
  have hr2 : removeBlocks capOpenLit capCloseLit (body.length + 1) body = body :=
    removeBlocks_id _ _ _ _ hbody (Nat.le_succ _)
  rw [parseGenerationTable_eq_of_findGrid _ _ hg1, parseGenerationTable_eq_of_findGrid _ _ hg2,
    hr1, hr2]

unseal Rat.add Rat.mul Rat.inv in
/-- C4 witness: the theorem applied to a caption embedding a two-row nested
table before one real 64 MW data row; the extraction of both pages agrees
and has exactly one period. -/
theorem usace_c4_witness :
    parseGenerationTable (withCaption c4WitCap c4WitBody) =
        parseGenerationTable (withoutCaption c4WitBody) ∧
    (parseGenerationTable (withoutCaption c4WitBody)).length = 1 :=
  ⟨usace_c4 c4WitCap c4WitBody (by decide) (by decide), by decide⟩

unseal Rat.add Rat.mul Rat.inv in
/-- C3, counterexample: the fallback document's hard-coded statistics block
stores `averageGeneration = 64`, but `round(mean)` over the union of its six
periods (42, 117, 42, 64, 64, 64) is `round(65.5) = 66`, so the claimed
relation fails on a fallback `ScrapeResult`. -/
theorem usace_c3_counterexample :
    (createFallbackData fbTodayStr fbYesterdayStr).statistics.averageGeneration =
        some (JSNum.num 64) ∧
    (computeStatistics 2
        (createFallbackData fbTodayStr fbYesterdayStr).schedules).averageGeneration =
        some (JSNum.num 66) ∧
    some (JSNum.num 64) ≠ some (JSNum.num 66) :=
  ⟨rfl, by decide, by decide⟩

/-- C3, amended: for statistics computed by `scrapeData` over a result's
schedules, `averageGeneration = round(mean)`, `peakGeneration = max` and
`minGeneration = min` over the union of all periods, the whole block is
invariant under schedule insertion order, and the aggregate fields are
absent when no periods exist.  (The fallback document's hard-coded average,
64, differs from the recomputed 66; its peak and min do match.) -/
theorem usace_c3_amended :
    (∀ (d : Nat) (s₁ s₂ : List (List Char × DaySchedule)), s₁.Perm s₂ →
      computeStatistics d s₁ = computeStatistics d s₂) ∧
    (∀ (d : Nat) (s : List (List Char × DaySchedule)), (allPeriodsOf s).length > 0 →
      (computeStatistics d s).averageGeneration =
        some (jsRound (jsDivNat (neFold jsAdd ((allPeriodsOf s).map Period.generation))
          ((allPeriodsOf s).map Period.generation).length)) ∧
      (computeStatistics d s).peakGeneration =
        some (neFold jsMaxOp ((allPeriodsOf s).map Period.generation)) ∧
      (computeStatistics d s).minGeneration =
        some (neFold jsMinOp ((allPeriodsOf s).map Period.generation)) ∧
      (computeStatistics d s).totalPeriods = some (allPeriodsOf s).length) ∧
    (∀ (d : Nat) (s : List (List Char × DaySchedule)), (allPeriodsOf s).length = 0 →
      (computeStatistics d s).averageGeneration = none ∧
      (computeStatistics d s).peakGeneration = none ∧
      (computeStatistics d s).minGeneration = none ∧
      (computeStatistics d s).totalPeriods = none) := by
  refine ⟨fun d s₁ s₂ h => computeStatistics_perm d h, ?_, ?_⟩
  · intro d s hn
    simp only [computeStatistics]
    rw [if_pos hn]
    exact ⟨rfl, rfl, rfl, rfl⟩
  · intro d s hn
    simp only [computeStatistics]
    rw [if_neg (by omega)]
    exact ⟨rfl, rfl, rfl, rfl⟩

unseal Rat.add Rat.mul Rat.inv in
/-- C3 witness: the amended theorem applied to a concrete two-schedule
result and its reversal; the recomputed average of the three periods
(30, 55, 8 MW) is 31 in both insertion orders. -/
theorem usace_c3_witness :
    computeStatistics 7 c3SchedsA = computeStatistics 7 c3SchedsB ∧
    (computeStatistics 7 c3SchedsA).averageGeneration = some (JSNum.num 31) :=
  ⟨usace_c3_amended.1 7 c3SchedsA c3SchedsB (List.reverse_perm c3SchedsA).symm,
   by decide⟩

/-- C6: the schedules mapping assembled by the date loop of `scrapeData`
never contains an entry whose periods sequence is empty — a date yielding
zero periods (or a thrown per-date error) is omitted entirely. -/
theorem usace_c6 (outcomes : List (List Char × Except ScrapeError DaySchedule))
    (kv : List Char × DaySchedule) (h : kv ∈ assembleSchedules outcomes) :
    kv.2.periods ≠ [] := by
  rw [assembleSchedules_eq] at h
  obtain ⟨a, _, hfa⟩ := List.mem_filterMap.mp h
  cases hae : a.2 with
  | ok sched =>
      simp only [hae] at hfa
      by_cases hp : sched.periods.length > 0
      · rw [if_pos hp] at hfa
        have hkv := Option.some_inj.mp hfa
        rw [← hkv]
        exact List.length_pos.mp hp
      · rw [if_neg hp] at hfa
        exact absurd hfa (by simp)
  | error e =>
      simp only [hae] at hfa
      exact Option.noConfusion hfa

/-- C6 witness: the theorem applied to a concrete run outcome in which one
date produced a period, one produced none and one threw. -/
theorem usace_c6_witness : c6SchedA.periods ≠ [] :=
  usace_c6 c6Outcomes ("1/5/2026".data, c6SchedA) (by decide)

/-- C7: `run()` substitutes the fallback document exactly when the scrape
sequence threw or completed with zero non-empty schedules; the fallback
covers exactly the two formatted days (yesterday and today, distinct keys),
three fixed periods each, has `statistics.totalDays = 2`, and carries a
source label containing "Fallback" that differs from the live label. -/
theorem usace_c7 (outcome : Except ScrapeError ScrapeResult) (t y : List Char)
    (hne : y ≠ t) :
    ((runPure outcome t y).2 = true ↔
      (∃ e, outcome = .error e) ∨ ∃ d, outcome = .ok d ∧ d.schedules.length = 0) ∧
    ((runPure outcome t y).2 = true → (runPure outcome t y).1 = createFallbackData t y) ∧
    ((runPure outcome t y).2 = false → ∃ d, outcome = .ok d ∧ (runPure outcome t y).1 = d) ∧
    ((createFallbackData t y).schedules.map Prod.fst = [y, t]) ∧
    ((createFallbackData t y).schedules.map Prod.fst).Nodup ∧
    (∀ kv ∈ (createFallbackData t y).schedules, kv.2.periods.length = 3) ∧
    ((createFallbackData t y).statistics.totalDays = 2) ∧
    (csContainsB fallbackMarker (createFallbackData t y).source = true) ∧
    ((createFallbackData t y).source ≠ liveSourceLabel) := by
  have hmap : (createFallbackData t y).schedules.map Prod.fst = [y, t] := rfl
  have hnodup : ((createFallbackData t y).schedules.map Prod.fst).Nodup := by
    rw [hmap]
    exact List.nodup_cons.mpr ⟨by simp [hne], List.nodup_singleton t⟩
  have hper : ∀ kv ∈ (createFallbackData t y).schedules, kv.2.periods.length = 3 := by
    intro kv hkv
    fin_cases hkv <;> rfl
  have htd : (createFallbackData t y).statistics.totalDays = 2 := rfl
  have hsrc : csContainsB fallbackMarker (createFallbackData t y).source = true := by
    show csContainsB fallbackMarker fallbackSourceLabel = true
    decide
  have hsrcne : (createFallbackData t y).source ≠ liveSourceLabel := by
    show fallbackSourceLabel ≠ liveSourceLabel
    decide
  cases outcome with
  | error e =>
      refine ⟨?_, ?_, ?_, hmap, hnodup, hper, htd, hsrc, hsrcne⟩
      · exact ⟨fun _ => Or.inl ⟨e, rfl⟩, fun _ => rfl⟩
      · intro _; rfl
      · intro hf; simp [runPure] at hf
  | ok data =>
      by_cases hs : data.schedules.length = 0
      · have hr : runPure (.ok data) t y = (createFallbackData t y, true) := by
          simp [runPure, hs]
        refine ⟨?_, ?_, ?_, hmap, hnodup, hper, htd, hsrc, hsrcne⟩
        · rw [hr]
          exact ⟨fun _ => Or.inr ⟨data, rfl, hs⟩, fun _ => rfl⟩
        · intro _; rw [hr]
        · rw [hr]; intro hf; simp at hf
      · have hr : runPure (.ok data) t y = (data, false) := by
          simp [runPure, hs]
        refine ⟨?_, ?_, ?_, hmap, hnodup, hper, htd, hsrc, hsrcne⟩
        · rw [hr]
          constructor
          · intro hf; simp at hf
          · rintro (⟨e, he⟩ | ⟨d, hd, hds⟩)
            · exact absurd he (by simp)
            · injection hd with hdd
              rw [← hdd] at hds
              exact absurd hds hs
        · rw [hr]; intro hf; simp at hf
        · rw [hr]; intro _; exact ⟨data, rfl, rfl⟩

/-- C7 witness: the theorem applied to a thrown sequence with concrete
formatted dates. -/
theorem usace_c7_witness :
    (runPure (.error .noDates) fbTodayStr fbYesterdayStr).2 = true ∧
    (createFallbackData fbTodayStr fbYesterdayStr).statistics.totalDays = 2 ∧
    csContainsB fallbackMarker (createFallbackData fbTodayStr fbYesterdayStr).source = true := by
  have h := usace_c7 (.error .noDates) fbTodayStr fbYesterdayStr (by decide)
  exact ⟨h.1.mpr (Or.inl ⟨_, rfl⟩), h.2.2.2.2.2.2.1, h.2.2.2.2.2.2.2.1⟩

/-- C8: every schedule returned by `scrapeDateData` for an HTTP 200 response
has `success = true` and carries exactly the periods parsed from the body —
the flag records that the exchange completed, not that any periods were
extracted. -/
theorem usace_c8 (di : DateInfo) (ff : List (List Char × List Char))
    (cookie : List Char) (resp : Response) (h200 : resp.status = 200) :
    ∃ ff2 ck, scrapeDateData di ff cookie resp =
      .ok ({ date := di.text, dateValue := di.value, success := true,
             periods := parseGenerationTable resp.body }, ff2, ck) :=
  ⟨_, _, scrapeDateData_ok_eq di ff cookie resp h200⟩

/-- C8 witness: a 200 response with an empty body still yields
`success = true` with an empty periods list. -/
theorem usace_c8_witness :
    ∃ ff2 ck, scrapeDateData witDateInfo [] [] emptyOkResponse =
      .ok ({ date := witDateInfo.text, dateValue := witDateInfo.value, success := true,
             periods := parseGenerationTable emptyOkResponse.body }, ff2, ck) :=
  usace_c8 witDateInfo [] [] emptyOkResponse rfl

/-- C9: a response without a `Set-Cookie` header leaves the stored session
cookie unchanged: `extractCookies` returns the empty string when the header
is absent, the sequencer's update keeps the old cookie on an empty extract,
and a 200 response with no `Set-Cookie` makes `scrapeDateData` return the
input cookie unchanged. -/
theorem usace_c9 :
    (∀ h : Headers, h.setCookie = .absent → extractCookies h = []) ∧
    (∀ old fresh : List Char, fresh = [] → updateCookie old fresh = old) ∧
    (∀ (di : DateInfo) (ff : List (List Char × List Char)) (cookie : List Char)
        (resp : Response) (sched : DaySchedule) (ff2 : List (List Char × List Char))
        (ck : List Char),
      resp.status = 200 → resp.headers.setCookie = .absent →
      scrapeDateData di ff cookie resp = .ok (sched, ff2, ck) → ck = cookie) := by
  have habs : ∀ h : Headers, h.setCookie = .absent → extractCookies h = [] := by
    intro h hab
    unfold extractCookies
    rw [hab]
  have hupd : ∀ old fresh : List Char, fresh = [] → updateCookie old fresh = old := by
    intro old fresh hf
    unfold updateCookie
    rw [if_neg (by simp [hf])]
  refine ⟨habs, hupd, ?_⟩
  intro di ff cookie resp sched ff2 ck h200 hab heq
  rw [scrapeDateData_ok_eq di ff cookie resp h200] at heq
  injection heq with hpair
  have hck := congrArg (fun z => z.2.2) hpair
  simp only at hck
  rw [← hck, habs resp.headers hab]
  exact hupd cookie [] rfl

/-- C9 witness: the theorem's parts applied to an absent header and a
concrete stored cookie. -/
theorem usace_c9_witness :
    extractCookies { setCookie := SetCookieField.absent } = [] ∧
    updateCookie "SESSION=1".data [] = "SESSION=1".data :=
  ⟨usace_c9.1 { setCookie := .absent } rfl, usace_c9.2.1 "SESSION=1".data [] rfl⟩

/-- C10: for every input HTML, the mapping returned by `extractFormFields`
binds exactly those of the four fixed targets whose patterns match — its key
list is the filter of the target list by pattern success, so no other key
ever appears and an unmatched field is absent rather than defaulted, every
bound value being the capture of the field's first successful pattern. -/
theorem usace_c10 (html : List Char) :
    ((extractFormFields html).map Prod.fst =
      formTargets.filter (fun f => (fieldPatterns f html).isSome)) ∧
    (∀ f v, (f, v) ∈ extractFormFields html →
      f ∈ formTargets ∧ fieldPatterns f html = some v) := by
  constructor
  · rw [extractFormFields_eq]
    have aux : ∀ ts : List (List Char),
        (ts.filterMap (fun f => (fieldPatterns f html).map (fun v => (f, v)))).map Prod.fst =
        ts.filter (fun f => (fieldPatterns f html).isSome) := by
      intro ts
      induction ts with
      | nil => rfl
      | cons a ts ih =>
          cases hf : fieldPatterns a html with
          | none => simp [List.filterMap_cons, List.filter_cons, hf, ih]
          | some v => simp [List.filterMap_cons, List.filter_cons, hf, ih]
    exact aux formTargets
  · intro f v hm
    rw [extractFormFields_eq] at hm
    obtain ⟨a, ha, hfa⟩ := List.mem_filterMap.mp hm
    cases hfp : fieldPatterns a html with
    | none => rw [hfp] at hfa; exact absurd hfa (by simp)
    | some w =>
        rw [hfp, Option.map_some'] at hfa
        have hpair := Option.some_inj.mp hfa
        have hf1 : a = f := congrArg Prod.fst hpair
        have hf2 : w = v := congrArg Prod.snd hpair
        rw [← hf1, ← hf2]
        exact ⟨ha, hfp⟩

/-- C10 witness: the theorem applied to a concrete form page that binds
`__VIEWSTATE` and `__EVENTVALIDATION` only. -/
theorem usace_c10_witness :
    ((extractFormFields c10WitHtml).map Prod.fst =
      formTargets.filter (fun f => (fieldPatterns f c10WitHtml).isSome)) ∧
    ("__VIEWSTATE".data ∈ formTargets ∧
      fieldPatterns "__VIEWSTATE".data c10WitHtml = some "dDtvs".data) :=
  ⟨(usace_c10 c10WitHtml).1,
   (usace_c10 c10WitHtml).2 "__VIEWSTATE".data "dDtvs".data (by decide)⟩

end Usace
